import Mathlib

/-!
Verification of the ZKironclaw safety and zk-proxy core against its
specification.  Rust strings in the TEE component are modelled by their
UTF-8 byte sequences (`List (Fin 256)`); `f32`/`f64` values are modelled
by exact rationals or reals; external libraries (SHA-256, the regex
engine, the leak detector, the policy engine, the sanitizer, the file
system, the worker process) are modelled as explicit function parameters,
since their code is outside this repository.
-/

namespace ZKironclaw

/-- A byte, as stored in a Rust `Vec<u8>` or UTF-8 string. -/
abbrev Byte := Fin 256

/-- A Rust `String`/`&[u8]` viewed as its byte sequence. -/
abbrev BStr := List Byte

/-- The UTF-8 bytes of an ASCII string literal (used only for ASCII
constants appearing in `src/src/zkproxy/tee.rs`). -/
def strBytes (s : String) : BStr :=
  s.data.map (fun c => ⟨c.toNat % 256, Nat.mod_lt _ (by decide)⟩)

/-- Hex digit for a nibble, lowercase, as produced by `hex::encode`. -/
def hexDigit (n : Fin 16) : Byte :=
  if h : n.val < 10 then ⟨48 + n.val, by omega⟩
  else ⟨87 + n.val, by have := n.isLt; omega⟩

/-- `hex::encode` of a single byte: two lowercase hex digits. -/
def hexEncodeByte (b : Byte) : List Byte :=
  [hexDigit ⟨b.val / 16, by have := b.isLt; omega⟩,
   hexDigit ⟨b.val % 16, by have := b.isLt; omega⟩]

/-- `hex::encode`: each byte becomes two lowercase hex digits. -/
def hexEncode : BStr → BStr
  | [] => []
  | b :: rest => hexEncodeByte b ++ hexEncode rest

/-- Value of one hex digit byte; `hex::decode` accepts both cases. -/
def hexVal (c : Byte) : Option (Fin 16) :=
  if h : 48 ≤ c.val ∧ c.val ≤ 57 then some ⟨c.val - 48, by omega⟩
  else if h2 : 97 ≤ c.val ∧ c.val ≤ 102 then some ⟨c.val - 87, by omega⟩
  else if h3 : 65 ≤ c.val ∧ c.val ≤ 70 then some ⟨c.val - 55, by omega⟩
  else none

/-- `hex::decode` on a byte string: fails on odd length or a non-hex
digit, otherwise pairs digits into bytes. -/
def hexDecodeCore : BStr → Option BStr
  | [] => some []
  | [_] => none
  | c1 :: c2 :: rest => do
      let hi ← hexVal c1
      let lo ← hexVal c2
      let r ← hexDecodeCore rest
      pure (⟨16 * hi.val + lo.val, by
        have := hi.isLt; have := lo.isLt; omega⟩ :: r)

/-- `hex::decode(..).unwrap_or_default()`: empty vector on failure, as in
`NoopTee::verify_attestation` and `ZkProxy::guard_check`. -/
def hexDecode (s : BStr) : BStr := (hexDecodeCore s).getD []

theorem hexVal_hexDigit (n : Fin 16) : hexVal (hexDigit n) = some n := by
  revert n; decide

theorem hexDecodeCore_hexEncode (l : BStr) :
    hexDecodeCore (hexEncode l) = some l := by
  induction l with
  | nil => rfl
  | cons b rest ih =>
      simp only [hexEncode, hexEncodeByte, List.cons_append, List.nil_append,
        hexDecodeCore, hexVal_hexDigit]
      rw [show ([] : BStr).append (hexEncode rest) = hexEncode rest from rfl, ih]
      simp only [Option.pure_def, Option.bind_eq_bind, Option.some_bind,
        Option.some.injEq, List.cons.injEq]
      exact ⟨Fin.ext (by simp only [Fin.val_mk]; omega), trivial⟩

theorem hexDecode_hexEncode (l : BStr) : hexDecode (hexEncode l) = l := by
  simp [hexDecode, hexDecodeCore_hexEncode]

theorem hexEncode_injective : Function.Injective hexEncode := by
  intro a b h
  have := hexDecodeCore_hexEncode a
  rw [h, hexDecodeCore_hexEncode b] at this
  exact (Option.some.injEq _ _ ▸ this).symm

/-- `AttestationReport` from `src/src/zkproxy/types.rs`; the four Rust
`String` fields are modelled as byte strings. -/
structure AttestationReport where
  proof_hash : BStr
  timestamp : BStr
  backend : BStr
  signature : BStr
  deriving DecidableEq, Repr

/-- The domain-separation constant hashed by `NoopTee`. -/
def noopSigned : BStr := strBytes "noop-tee-self-signed"

/-- `NoopTee::attest` from `src/src/zkproxy/tee.rs`.  The SHA-256
function of the external `sha2` crate is a parameter `sha`; the
timestamp produced by `Utc::now().to_rfc3339()` is a parameter. -/
def NoopTee.attest (sha : BStr → BStr) (timestamp : BStr)
    (proof_hash : BStr) : AttestationReport :=
  let signature := hexEncode (sha (proof_hash ++ timestamp ++ noopSigned))
  { proof_hash := hexEncode proof_hash
    timestamp := timestamp
    backend := strBytes "noop"
    signature := signature }

/-- `NoopTee::verify_attestation` from `src/src/zkproxy/tee.rs`:
recompute the digest from the hex-decoded `proof_hash` and the
`timestamp`, and compare with `signature`. -/
def NoopTee.verify_attestation (sha : BStr → BStr)
    (report : AttestationReport) : Bool :=
  let proof_bytes := hexDecode report.proof_hash
  let expected := hexEncode (sha (proof_bytes ++ report.timestamp ++ noopSigned))
  decide (expected = report.signature)

/-- C5: for every byte string `h` (and every hash function and
timestamp), `verify_attestation (attest h)` returns `true`: `attest`
signs `sha256(h ++ timestamp ++ "noop-tee-self-signed")` hex-encoded and
`verify_attestation` recomputes the same digest from the hex-decoded
`proof_hash` and compares for exact equality. -/
theorem noop_tee_roundtrip_verifies (sha : BStr → BStr)
    (timestamp h : BStr) :
    NoopTee.verify_attestation sha (NoopTee.attest sha timestamp h) = true := by
  simp [NoopTee.verify_attestation, NoopTee.attest, hexDecode_hexEncode]

/-- C4 counterexample: the claim that changing any one of the four
fields of an attestation report makes `verify_attestation` return
`false` fails for the `backend` field, which `verify_attestation` never
reads: mutating it leaves verification succeeding. -/
theorem attest_mutation_claim_false :
    (({ NoopTee.attest (fun s => s) [] [] with
        backend := strBytes "other" } : AttestationReport).backend ≠
      (NoopTee.attest (fun s => s) [] []).backend) ∧
    NoopTee.verify_attestation (fun s => s)
      { NoopTee.attest (fun s => s) [] [] with
        backend := strBytes "other" } = true := by
  constructor
  · decide
  · decide

/-- C4 (amended): with a collision-free hash, changing the `timestamp`
or the `signature` of an attestation report to a different value, or
changing `proof_hash` to a value whose hex-decoding differs from the
attested bytes, makes `verify_attestation` return `false`; the `backend`
field is not checked at all. -/
theorem verify_attestation_detects_mutations (sha : BStr → BStr)
    (hinj : Function.Injective sha) (timestamp h ts2 sig2 p2 : BStr)
    (hts : ts2 ≠ timestamp)
    (hsig : sig2 ≠ (NoopTee.attest sha timestamp h).signature)
    (hp : hexDecode p2 ≠ h) :
    NoopTee.verify_attestation sha
      { NoopTee.attest sha timestamp h with timestamp := ts2 } = false ∧
    NoopTee.verify_attestation sha
      { NoopTee.attest sha timestamp h with signature := sig2 } = false ∧
    NoopTee.verify_attestation sha
      { NoopTee.attest sha timestamp h with proof_hash := p2 } = false := by
  refine ⟨?_, ?_, ?_⟩
  · simp only [NoopTee.verify_attestation, NoopTee.attest, hexDecode_hexEncode]
    apply decide_eq_false
    intro heq
    have h1 := hinj (hexEncode_injective heq)
    have h2 := List.append_cancel_right h1
    have h3 := List.append_cancel_left h2
    exact hts h3
  · simp only [NoopTee.verify_attestation, NoopTee.attest, hexDecode_hexEncode]
    apply decide_eq_false
    intro heq
    exact hsig heq.symm
  · simp only [NoopTee.verify_attestation, NoopTee.attest, hexDecode_hexEncode]
    apply decide_eq_false
    intro heq
    have h1 := hinj (hexEncode_injective heq)
    have h2 := List.append_cancel_right (List.append_cancel_right h1)
    exact hp h2

/-- Witness for the amended C4 at a concrete hash function and report. -/
theorem verify_attestation_detects_mutations_witness :
    NoopTee.verify_attestation (fun s => s)
      { NoopTee.attest (fun s => s) [] [] with timestamp := strBytes "x" } = false ∧
    NoopTee.verify_attestation (fun s => s)
      { NoopTee.attest (fun s => s) [] [] with signature := [] } = false ∧
    NoopTee.verify_attestation (fun s => s)
      { NoopTee.attest (fun s => s) [] [] with proof_hash := strBytes "00" } = false :=
  verify_attestation_detects_mutations (fun s => s) (fun _ _ hh => hh)
    [] [] (strBytes "x") [] (strBytes "00")
    (by decide) (by decide) (by decide)

/-! ## Safety layer (`src/src/safety/mod.rs`)

Rust strings are modelled by Lean strings; `output.len()` in Rust is the
UTF-8 byte count, modelled by `String.utf8ByteSize`.  The sub-engines
(leak detector, policy engine, sanitizer), whose sources are outside
`src/`, enter the model as function-valued fields of `SafetyLayer`. -/

/-- Modelled from the spec: `Severity` of the policy domain
(`{Low, Medium, High, Critical}`); the defining file is not in `src/`. -/
inductive Severity where
  | Low
  | Medium
  | High
  | Critical
  deriving DecidableEq, Repr

/-- Modelled from the spec: `PolicyAction` (`{Block, Sanitize, Warn}`);
the defining file is not in `src/`. -/
inductive PolicyAction where
  | Block
  | Sanitize
  | Warn
  deriving DecidableEq, Repr

/-- Modelled from the spec: `PolicyRule`
(`{name, matcher: pattern, action, severity}`); the defining file is not
in `src/`.  The matcher itself is irrelevant here: rule matching enters
the model through the `policyCheck` function of `SafetyLayer`. -/
structure PolicyRule where
  name : String
  matcher : String
  action : PolicyAction
  severity : Severity
  deriving DecidableEq, Repr

/-- Modelled from the spec: `InjectionWarning`
(`{pattern, severity, location: byte_range, description}`); the defining
file is not in `src/`.  `location` is the half-open byte range as a
start/end pair. -/
structure InjectionWarning where
  pattern : String
  severity : Severity
  location : Nat × Nat
  description : String
  deriving DecidableEq, Repr

/-- Modelled from the spec: `SanitizedOutput`
(`{content, warnings, was_modified}`); the defining file is not in
`src/`. -/
structure SanitizedOutput where
  content : String
  warnings : List InjectionWarning
  was_modified : Bool
  deriving DecidableEq, Repr

/-- Modelled from the spec: the leak-detector error type; only its
existence matters, since `sanitize_tool_output` matches `Err(_)`. -/
structure LeakDetectionError where
  msg : String
  deriving DecidableEq, Repr

/-- `SafetyConfig` fields used by `sanitize_tool_output`
(`src/src/config/agent.rs` is the loader; the two fields appear in
`src/src/safety/mod.rs`). -/
structure SafetyConfig where
  max_output_length : Nat
  injection_check_enabled : Bool
  deriving DecidableEq, Repr

/-- `SafetyLayer` from `src/src/safety/mod.rs`.  The leak detector,
policy engine and sanitizer are function-valued fields, since their
implementations are outside `src/`. -/
structure SafetyLayer where
  config : SafetyConfig
  scanAndClean : String → Except LeakDetectionError String
  policyCheck : String → List PolicyRule
  sanitizerRun : String → SanitizedOutput

/-- `SafetyLayer::sanitize_tool_output` from `src/src/safety/mod.rs`:
length gate, leak scan, policy check, optional sanitizer pass. -/
def sanitize_tool_output (L : SafetyLayer) (tool_name output : String) :
    SanitizedOutput :=
  if output.utf8ByteSize > L.config.max_output_length then
    { content := "[Output truncated: " ++ toString output.utf8ByteSize ++
        " bytes exceeded maximum of " ++
        toString L.config.max_output_length ++ " bytes]"
      warnings := [{ pattern := "output_too_large"
                     severity := Severity.Low
                     location := (0, output.utf8ByteSize)
                     description := "Output from tool \x27" ++ tool_name ++
                       "\x27 was truncated due to size" }]
      was_modified := true }
  else
    match L.scanAndClean output with
    | Except.error _ =>
        { content := "[Output blocked due to potential secret leakage]"
          warnings := []
          was_modified := true }
    | Except.ok cleaned =>
        let was_modified := cleaned != output
        let violations := L.policyCheck cleaned
        if violations.any (fun r => r.action == PolicyAction.Block) then
          { content := "[Output blocked by safety policy]"
            warnings := []
            was_modified := true }
        else
          let force_sanitize :=
            violations.any (fun r => r.action == PolicyAction.Sanitize)
          let was_modified := was_modified || force_sanitize
          if L.config.injection_check_enabled || force_sanitize then
            let s := L.sanitizerRun cleaned
            { s with was_modified := s.was_modified || was_modified }
          else
            { content := cleaned
              warnings := []
              was_modified := was_modified }

/-- Rust `str::replace` with a single-character pattern, at the level of
character lists: every occurrence of `c` becomes `r`. -/
def replChar (c : Char) (r : List Char) (l : List Char) : List Char :=
  (l.map (fun x => if x = c then r else [x])).join

/-- Rust `String::replace(char, &str)` on Lean strings. -/
def replaceChar (c : Char) (r : String) (s : String) : String :=
  ⟨replChar c r.data s.data⟩

/-- `escape_xml_attr` from `src/src/safety/mod.rs`: four successive
replaces, in source order `&`, `"`, `<`, `>`. -/
def escape_xml_attr (s : String) : String :=
  replaceChar '>' "&gt;"
    (replaceChar '<' "&lt;"
      (replaceChar '"' "&quot;"
        (replaceChar '&' "&amp;" s)))

/-- `escape_xml_content` from `src/src/safety/mod.rs`: three successive
replaces, in source order `&`, `<`, `>`. -/
def escape_xml_content (s : String) : String :=
  replaceChar '>' "&gt;"
    (replaceChar '<' "&lt;"
      (replaceChar '&' "&amp;" s))

/-- `SafetyLayer::wrap_for_llm` from `src/src/safety/mod.rs`. -/
def wrap_for_llm (tool_name content : String) (sanitized : Bool) : String :=
  "<tool_output name=\"" ++ escape_xml_attr tool_name ++
    "\" sanitized=\"" ++ (if sanitized then "true" else "false") ++
    "\">\n" ++ escape_xml_content content ++ "\n</tool_output>"

/-- Single-pass attribute escaping as the spec words it: `& " < >`
become entities, all other characters stay. -/
def escAttrChar (x : Char) : List Char :=
  if x = '&' then "&amp;".data
  else if x = '"' then "&quot;".data
  else if x = '<' then "&lt;".data
  else if x = '>' then "&gt;".data
  else [x]

/-- Single-pass content escaping as the spec words it: `& < >` become
entities, all other characters stay. -/
def escContentChar (x : Char) : List Char :=
  if x = '&' then "&amp;".data
  else if x = '<' then "&lt;".data
  else if x = '>' then "&gt;".data
  else [x]

theorem replChar_append (c : Char) (r a b : List Char) :
    replChar c r (a ++ b) = replChar c r a ++ replChar c r b := by
  simp [replChar]

theorem replChar_cons (c : Char) (r : List Char) (y : Char) (m : List Char) :
    replChar c r (y :: m) = (if y = c then r else [y]) ++ replChar c r m := by
  simp [replChar]

theorem escAttrChar_step (x : Char) :
    replChar '>' "&gt;".data
      (replChar '<' "&lt;".data
        (replChar '"' "&quot;".data
          (replChar '&' "&amp;".data [x]))) = escAttrChar x := by
  by_cases h1 : x = '&'
  · subst h1; rfl
  · by_cases h2 : x = '"'
    · subst h2; rfl
    · by_cases h3 : x = '<'
      · subst h3; rfl
      · by_cases h4 : x = '>'
        · subst h4; rfl
        · simp [replChar, escAttrChar, h1, h2, h3, h4]

theorem escContentChar_step (x : Char) :
    replChar '>' "&gt;".data
      (replChar '<' "&lt;".data
        (replChar '&' "&amp;".data [x])) = escContentChar x := by
  by_cases h1 : x = '&'
  · subst h1; rfl
  · by_cases h3 : x = '<'
    · subst h3; rfl
    · by_cases h4 : x = '>'
      · subst h4; rfl
      · simp [replChar, escContentChar, h1, h3, h4]

theorem escAttrList (l : List Char) :
    replChar '>' "&gt;".data
      (replChar '<' "&lt;".data
        (replChar '"' "&quot;".data
          (replChar '&' "&amp;".data l))) = (l.map escAttrChar).join := by
  induction l with
  | nil => rfl
  | cons x t ih =>
      have hx : replChar '&' "&amp;".data (x :: t) =
          replChar '&' "&amp;".data [x] ++ replChar '&' "&amp;".data t := by
        rw [← replChar_append]; rfl
      rw [hx, replChar_append, replChar_append, replChar_append,
        escAttrChar_step, ih]
      rfl

theorem escContentList (l : List Char) :
    replChar '>' "&gt;".data
      (replChar '<' "&lt;".data
        (replChar '&' "&amp;".data l)) = (l.map escContentChar).join := by
  induction l with
  | nil => rfl
  | cons x t ih =>
      have hx : replChar '&' "&amp;".data (x :: t) =
          replChar '&' "&amp;".data [x] ++ replChar '&' "&amp;".data t := by
        rw [← replChar_append]; rfl
      rw [hx, replChar_append, replChar_append, escContentChar_step, ih]
      rfl

theorem escape_xml_attr_eq (s : String) :
    escape_xml_attr s = ⟨(s.data.map escAttrChar).join⟩ := by
  apply congrArg String.mk
  exact escAttrList s.data

theorem escape_xml_content_eq (s : String) :
    escape_xml_content s = ⟨(s.data.map escContentChar).join⟩ := by
  apply congrArg String.mk
  exact escContentList s.data

/-- C8: `wrap_for_llm` emits exactly the
`<tool_output name=.. sanitized=..>` envelope, where the attribute value
is the tool name with `&`, `"`, `<`, `>` mapped to `&amp;`, `&quot;`,
`&lt;`, `&gt;`, the body is the content with `&`, `<`, `>` mapped to
`&amp;`, `&lt;`, `&gt;`, and every other character (apostrophes
included) kept unchanged — the right-hand side uses the single-pass
character maps `escAttrChar`/`escContentChar`, whose default branch
returns the character itself. -/
theorem wrap_for_llm_exact (tool_name content : String) (sanitized : Bool) :
    wrap_for_llm tool_name content sanitized =
      "<tool_output name=\"" ++ (⟨(tool_name.data.map escAttrChar).join⟩ : String) ++
        "\" sanitized=\"" ++ (if sanitized then "true" else "false") ++
        "\">\n" ++ (⟨(content.data.map escContentChar).join⟩ : String) ++
        "\n</tool_output>" := by
  rw [wrap_for_llm, escape_xml_attr_eq, escape_xml_content_eq]

/-- A concrete safety layer whose engines do nothing: the scan returns
its input, no policy rule matches, the sanitizer is the identity. -/
def idLayer (maxLen : Nat) : SafetyLayer :=
  { config := { max_output_length := maxLen, injection_check_enabled := true }
    scanAndClean := fun s => Except.ok s
    policyCheck := fun _ => []
    sanitizerRun := fun s => { content := s, warnings := [], was_modified := false } }

/-- C3 counterexample: on a 6-byte output with `max_output_length = 5`
the code produces `[Output truncated: 6 bytes exceeded maximum of 5
bytes]` — with a trailing ` bytes` after the maximum — so the content is
not the claimed string `[Output truncated: 6 bytes exceeded maximum of
5]`. -/
theorem truncation_message_claim_false :
    (sanitize_tool_output (idLayer 5) "tool" "123456").content =
      "[Output truncated: 6 bytes exceeded maximum of 5 bytes]" ∧
    (sanitize_tool_output (idLayer 5) "tool" "123456").content ≠
      "[Output truncated: 6 bytes exceeded maximum of 5]" := by
  constructor
  · decide
  · decide

/-- C3 (amended): when the output byte length exceeds
`max_output_length`, `sanitize_tool_output` returns exactly the
synthesized message `[Output truncated: N bytes exceeded maximum of M
bytes]` with one `Low` warning named `output_too_large` and
`was_modified = true`; the result depends only on the config, the tool
name and the output, so no leak scan, policy check or sanitizer pass
takes part. -/
theorem truncation_gate_exact (L : SafetyLayer) (tool_name output : String)
    (h : output.utf8ByteSize > L.config.max_output_length) :
    sanitize_tool_output L tool_name output =
      { content := "[Output truncated: " ++ toString output.utf8ByteSize ++
          " bytes exceeded maximum of " ++
          toString L.config.max_output_length ++ " bytes]"
        warnings := [{ pattern := "output_too_large"
                       severity := Severity.Low
                       location := (0, output.utf8ByteSize)
                       description := "Output from tool \x27" ++ tool_name ++
                         "\x27 was truncated due to size" }]
        was_modified := true } := by
  simp [sanitize_tool_output, h]

/-- Witness for the amended C3 at a concrete layer and oversized
output. -/
theorem truncation_gate_exact_witness :
    sanitize_tool_output (idLayer 5) "t" "123456" =
      { content := "[Output truncated: 6 bytes exceeded maximum of 5 bytes]"
        warnings := [{ pattern := "output_too_large"
                       severity := Severity.Low
                       location := (0, 6)
                       description := "Output from tool \x27t\x27 was truncated due to size" }]
        was_modified := true } :=
  (truncation_gate_exact (idLayer 5) "t" "123456" (by decide)).trans (by decide)

/-- C2: `sanitize_tool_output` is a total function into
`SanitizedOutput` (it has no error outcome by type), and on the two
blocking paths it substitutes fixed placeholders: when the leak scan of
the output returns `Err`, the result is exactly `[Output blocked due to
potential secret leakage]` with no warnings and `was_modified = true`;
when the scan succeeds and some matched policy rule has action `Block`,
the result is exactly `[Output blocked by safety policy]` with no
warnings and `was_modified = true`, and it is independent of the
sanitizer (the same result for every sanitizer function), i.e. it is
returned before any sanitizer pass. -/
theorem sanitize_blocked_paths (L1 L2 : SafetyLayer) (t1 o1 t2 o2 : String)
    (err : LeakDetectionError) (cleaned : String)
    (san2 : String → SanitizedOutput)
    (hlen1 : ¬ o1.utf8ByteSize > L1.config.max_output_length)
    (hscan1 : L1.scanAndClean o1 = Except.error err)
    (hlen2 : ¬ o2.utf8ByteSize > L2.config.max_output_length)
    (hscan2 : L2.scanAndClean o2 = Except.ok cleaned)
    (hblock : (L2.policyCheck cleaned).any
      (fun r => r.action == PolicyAction.Block) = true) :
    sanitize_tool_output L1 t1 o1 =
      { content := "[Output blocked due to potential secret leakage]"
        warnings := []
        was_modified := true } ∧
    sanitize_tool_output L2 t2 o2 =
      { content := "[Output blocked by safety policy]"
        warnings := []
        was_modified := true } ∧
    sanitize_tool_output { L2 with sanitizerRun := san2 } t2 o2 =
      { content := "[Output blocked by safety policy]"
        warnings := []
        was_modified := true } := by
  refine ⟨?_, ?_, ?_⟩
  · simp [sanitize_tool_output, hlen1, hscan1]
  · simp [sanitize_tool_output, hlen2, hscan2, hblock]
  · simp [sanitize_tool_output, hlen2, hscan2, hblock]

/-- A concrete layer whose leak scan always reports a blocking leak. -/
def leakErrLayer : SafetyLayer :=
  { config := { max_output_length := 100, injection_check_enabled := true }
    scanAndClean := fun _ => Except.error { msg := "leak" }
    policyCheck := fun _ => []
    sanitizerRun := fun s => { content := s, warnings := [], was_modified := false } }

/-- A concrete layer with one always-matching `Block` policy rule. -/
def blockPolicyLayer : SafetyLayer :=
  { config := { max_output_length := 100, injection_check_enabled := true }
    scanAndClean := fun s => Except.ok s
    policyCheck := fun _ =>
      [{ name := "r", matcher := "m", action := PolicyAction.Block
         severity := Severity.High }]
    sanitizerRun := fun s => { content := s, warnings := [], was_modified := false } }

/-- Witness for C2 at two concrete layers. -/
theorem sanitize_blocked_paths_witness :
    sanitize_tool_output leakErrLayer "t" "hello" =
      { content := "[Output blocked due to potential secret leakage]"
        warnings := []
        was_modified := true } ∧
    sanitize_tool_output blockPolicyLayer "t" "hello" =
      { content := "[Output blocked by safety policy]"
        warnings := []
        was_modified := true } ∧
    sanitize_tool_output { blockPolicyLayer with
        sanitizerRun := fun s => { content := s, warnings := [], was_modified := false } }
      "t" "hello" =
      { content := "[Output blocked by safety policy]"
        warnings := []
        was_modified := true } :=
  sanitize_blocked_paths leakErrLayer blockPolicyLayer "t" "hello" "t" "hello"
    { msg := "leak" } "hello"
    (fun s => { content := s, warnings := [], was_modified := false })
    (by decide) rfl (by decide) rfl (by decide)

/-! ## Feature extractor (`src/src/zkproxy/feature.rs`)

`f32` feature values are modelled as exact rationals.  The compiled
regexes of the external `regex` crate enter the model as an optional
match-count function per slot index, and the floating-point `log2` used
by the `entropy` builtin as a function field. -/

/-- `String::to_lowercase`, modelled character-wise (exact on ASCII,
which is all the bundled configs use). -/
def lowerStr (s : String) : String := ⟨s.data.map Char.toLower⟩

/-- Fuelled scanner behind `countMatches`: non-overlapping
left-to-right matches of a non-empty pattern, as `str::matches`. -/
def matchGo (pat : List Char) : Nat → List Char → Nat
  | _, [] => 0
  | 0, _ :: _ => 0
  | Nat.succ fuel, c :: t =>
      if pat.isPrefixOf (c :: t) then
        1 + matchGo pat fuel ((c :: t).drop pat.length)
      else
        matchGo pat fuel t

/-- Number of non-overlapping occurrences of `pat` in `s`, with the
`str::matches` semantics of the Rust standard library: the empty
pattern matches once per character boundary. -/
def countMatches (pat s : List Char) : Nat :=
  if pat.isEmpty then s.length + 1 else matchGo pat s.length s

/-- `lower.matches(&needle).count()` on Lean strings. -/
def countOccur (needle content : String) : Nat :=
  countMatches needle.data content.data

/-- `FeatureSpec` from `src/src/zkproxy/types.rs`. -/
structure FeatureSpec where
  name : String
  kind : String
  index : Nat
  patterns : List String
  strings : List String
  deriving DecidableEq, Repr

/-- `FeatureConfig` from `src/src/zkproxy/types.rs`; `threshold: f64` as
a rational. -/
structure FeatureConfig where
  input_features : Nat
  features : List FeatureSpec
  threshold : ℚ
  model_name : String
  model_hash_sha256 : String
  onnx_path : String
  deriving DecidableEq, Repr

/-- `FeatureExtractor` from `src/src/zkproxy/feature.rs`.
`compiledRegexes` models the `HashMap<usize, Vec<Regex>>` built by
`FeatureExtractor::new`: at a present index it yields the total
non-overlapping match count of the compiled regex vector (the `regex`
crate is external code).  `log2` models the floating-point `f64::log2`
used by the `entropy` builtin. -/
structure FeatureExtractor where
  config : FeatureConfig
  compiledRegexes : Nat → Option (String → Nat)
  log2 : ℚ → ℚ

/-- `FeatureExtractor::extract_regex_count`. -/
def extract_regex_count (E : FeatureExtractor) (feat : FeatureSpec)
    (content : String) : ℚ :=
  match E.compiledRegexes feat.index with
  | some f => min ((f content : ℚ)) 10 / 10
  | none => 0

/-- `FeatureExtractor::extract_string_match`: case-insensitive needle
counting, capped at 10 and scaled. -/
def extract_string_match (feat : FeatureSpec) (content : String) : ℚ :=
  let lower := lowerStr content
  let count := (feat.strings.map (fun s => countOccur (lowerStr s) lower)).sum
  min ((count : ℚ)) 10 / 10

/-- Number of characters of `s` satisfying `p`. -/
def charCount (p : Char → Bool) (s : String) : Nat :=
  (s.data.filter p).length

/-- UTF-8 encoding of one scalar value. -/
def utf8EncodeChar (c : Char) : List Nat :=
  let n := c.toNat
  if n < 128 then [n]
  else if n < 2048 then [192 + n / 64, 128 + n % 64]
  else if n < 65536 then [224 + n / 4096, 128 + (n / 64) % 64, 128 + n % 64]
  else [240 + n / 262144, 128 + (n / 4096) % 64, 128 + (n / 64) % 64,
    128 + n % 64]

/-- `content.as_bytes()`. -/
def utf8Bytes (s : String) : List Nat :=
  (s.data.map utf8EncodeChar).join

/-- Occurrences of byte value `b` in the UTF-8 bytes of `s`, as the
`freq` array of the `entropy` builtin. -/
def byteFreq (s : String) (b : Nat) : Nat := (utf8Bytes s).count b

/-- The Shannon-entropy sum of the `entropy` builtin, with the
floating-point `log2` abstracted as a parameter. -/
def shannonEntropy (log2 : ℚ → ℚ) (s : String) : ℚ :=
  let len : ℚ := ((utf8Bytes s).length : ℚ)
  ∑ b in Finset.range 256,
    if 0 < byteFreq s b then
      -((byteFreq s b : ℚ) / len) * log2 ((byteFreq s b : ℚ) / len)
    else 0

/-- `content.lines().count()` with the `str::lines` semantics: a
trailing newline does not open a further line. -/
def linesCount (s : String) : Nat :=
  if s.data.isEmpty then 0
  else s.data.count '\n' + (if s.data.getLast? = some '\n' then 0 else 1)

/-- `content.split_whitespace()`: maximal non-empty runs between
whitespace characters. -/
def wordsOf (s : String) : List (List Char) :=
  (s.data.splitOnP (fun c => c.isWhitespace)).filter (fun w => !w.isEmpty)

/-- Byte length of a word slice. -/
def listUtf8Len (w : List Char) : Nat := (w.map Char.utf8Size).sum

/-- `FeatureExtractor::extract_builtin`: the named builtin features.
The character class predicates are the ASCII readings of the Rust
`char` predicates; the verified bounds do not depend on the class. -/
def extract_builtin (log2 : ℚ → ℚ) (feat : FeatureSpec)
    (content : String) : ℚ :=
  if feat.name = "normalized_length" then
    min ((content.utf8ByteSize : ℚ) / 1000) 1
  else if feat.name = "digit_ratio" then
    if content.data.isEmpty then 0
    else (charCount Char.isDigit content : ℚ) / (content.utf8ByteSize : ℚ)
  else if feat.name = "whitespace_ratio" then
    if content.data.isEmpty then 0
    else (charCount Char.isWhitespace content : ℚ) / (content.utf8ByteSize : ℚ)
  else if feat.name = "uppercase_ratio" then
    if content.data.isEmpty then 0
    else (charCount Char.isUpper content : ℚ) / (content.utf8ByteSize : ℚ)
  else if feat.name = "special_char_ratio" then
    if content.data.isEmpty then 0
    else (charCount (fun c => !c.isAlphanum && !c.isWhitespace) content : ℚ) /
      (content.utf8ByteSize : ℚ)
  else if feat.name = "avg_word_length" then
    if (wordsOf content).isEmpty then 0
    else min ((((wordsOf content).map listUtf8Len).sum : ℚ) /
      ((wordsOf content).length : ℚ) / 20) 1
  else if feat.name = "line_count_norm" then
    min ((linesCount content : ℚ) / 100) 1
  else if feat.name = "entropy" then
    if content.data.isEmpty then 0
    else min (shannonEntropy log2 content / 8) 1
  else 0

/-- The per-spec dispatch of `FeatureExtractor::extract`. -/
def featureValue (E : FeatureExtractor) (feat : FeatureSpec)
    (content : String) : ℚ :=
  if feat.kind = "regex_count" then extract_regex_count E feat content
  else if feat.kind = "string_match" then extract_string_match feat content
  else if feat.kind = "builtin" then extract_builtin E.log2 feat content
  else 0

/-- `FeatureExtractor::extract`: start from the zero vector of length
`input_features` and write each in-range slot. -/
def extract (E : FeatureExtractor) (content : String) : List ℚ :=
  E.config.features.foldl
    (fun acc feat =>
      if feat.index < acc.length then
        acc.set feat.index (featureValue E feat content)
      else acc)
    (List.replicate E.config.input_features 0)

theorem length_le_utf8Len (cs : List Char) : cs.length ≤ String.utf8Len cs := by
  induction cs with
  | nil => exact Nat.zero_le _
  | cons c t ih =>
      have := Char.utf8Size_pos c
      simp only [List.length_cons, String.utf8Len_cons]
      omega

theorem data_length_le_utf8ByteSize (s : String) :
    s.data.length ≤ s.utf8ByteSize := by
  cases s with
  | mk cs => simpa using length_le_utf8Len cs

theorem utf8ByteSize_pos (s : String) (h : ¬ s.data.isEmpty) :
    0 < s.utf8ByteSize := by
  cases s with
  | mk cs =>
      cases cs with
      | nil => simp at h
      | cons c t =>
          have := Char.utf8Size_pos c
          simp only [String.utf8ByteSize_mk, String.utf8Len_cons]
          omega

theorem capped_div_ten_unit (n : ℕ) :
    0 ≤ min ((n : ℚ)) 10 / 10 ∧ min ((n : ℚ)) 10 / 10 ≤ 1 := by
  constructor
  · apply div_nonneg _ (by norm_num)
    exact le_min (Nat.cast_nonneg n) (by norm_num)
  · rw [div_le_one (by norm_num : (0:ℚ) < 10)]
    exact min_le_right _ _

theorem ratio_unit (a b : ℕ) (hab : a ≤ b) (hb : 0 < b) :
    0 ≤ ((a : ℚ) / (b : ℚ)) ∧ (a : ℚ) / (b : ℚ) ≤ 1 := by
  constructor
  · exact div_nonneg (Nat.cast_nonneg a) (Nat.cast_nonneg b)
  · rw [div_le_one (by exact_mod_cast hb)]
    exact_mod_cast hab

theorem min_one_unit (x : ℚ) (hx : 0 ≤ x) :
    0 ≤ min x 1 ∧ min x 1 ≤ 1 := by
  exact ⟨le_min hx (by norm_num), min_le_right _ _⟩

theorem shannonEntropy_nonneg (log2 : ℚ → ℚ)
    (hlog : ∀ q : ℚ, 0 < q → q ≤ 1 → log2 q ≤ 0) (s : String) :
    0 ≤ shannonEntropy log2 s := by
  unfold shannonEntropy
  apply Finset.sum_nonneg
  intro b _
  by_cases hc : 0 < byteFreq s b
  · simp only [hc, if_true]
    have hlen : byteFreq s b ≤ (utf8Bytes s).length := List.count_le_length _ _
    have hpos : 0 < (utf8Bytes s).length := lt_of_lt_of_le hc hlen
    set p : ℚ := (byteFreq s b : ℚ) / ((utf8Bytes s).length : ℚ) with hp
    have hp0 : 0 < p := by
      apply div_pos (by exact_mod_cast hc) (by exact_mod_cast hpos)
    have hp1 : p ≤ 1 := by
      rw [hp, div_le_one (by exact_mod_cast hpos)]
      exact_mod_cast hlen
    have := hlog p hp0 hp1
    have : 0 ≤ p * -(log2 p) := mul_nonneg (le_of_lt hp0) (by linarith)
    calc (0:ℚ) ≤ p * -(log2 p) := this
      _ = -p * log2 p := by ring
  · simp [hc]

theorem charRatio_unit (p : Char → Bool) (content : String)
    (h : ¬ content.data.isEmpty) :
    0 ≤ (charCount p content : ℚ) / (content.utf8ByteSize : ℚ) ∧
      (charCount p content : ℚ) / (content.utf8ByteSize : ℚ) ≤ 1 :=
  ratio_unit _ _
    (le_trans (List.length_filter_le _ _) (data_length_le_utf8ByteSize content))
    (utf8ByteSize_pos content h)

theorem extract_builtin_unit (log2 : ℚ → ℚ)
    (hlog : ∀ q : ℚ, 0 < q → q ≤ 1 → log2 q ≤ 0)
    (feat : FeatureSpec) (content : String) :
    0 ≤ extract_builtin log2 feat content ∧
      extract_builtin log2 feat content ≤ 1 := by
  unfold extract_builtin
  split_ifs
  · exact min_one_unit _ (by positivity)
  · norm_num
  · exact charRatio_unit _ _ (by assumption)
  · norm_num
  · exact charRatio_unit _ _ (by assumption)
  · norm_num
  · exact charRatio_unit _ _ (by assumption)
  · norm_num
  · exact charRatio_unit _ _ (by assumption)
  · norm_num
  · apply min_one_unit
    apply div_nonneg _ (by norm_num)
    exact div_nonneg (Nat.cast_nonneg _) (Nat.cast_nonneg _)
  · exact min_one_unit _ (by positivity)
  · norm_num
  · exact min_one_unit _ (div_nonneg (shannonEntropy_nonneg _ hlog _) (by norm_num))
  · norm_num

theorem featureValue_unit (E : FeatureExtractor)
    (hlog : ∀ q : ℚ, 0 < q → q ≤ 1 → E.log2 q ≤ 0)
    (feat : FeatureSpec) (content : String) :
    0 ≤ featureValue E feat content ∧ featureValue E feat content ≤ 1 := by
  unfold featureValue
  split_ifs
  · unfold extract_regex_count
    cases E.compiledRegexes feat.index with
    | none => norm_num
    | some f => exact capped_div_ten_unit (f content)
  · unfold extract_string_match
    exact capped_div_ten_unit _
  · exact extract_builtin_unit E.log2 hlog feat content
  · norm_num

/-- C6: for every extractor (whose floating-point `log2` is
sign-correct on `(0, 1]`, as the real `f64::log2` is) and every input,
`extract` returns a vector of length exactly `input_features`, and
every slot lies in the closed interval `[0, 1]`. -/
theorem extract_shape_and_bounds (E : FeatureExtractor)
    (hlog : ∀ q : ℚ, 0 < q → q ≤ 1 → E.log2 q ≤ 0) (content : String) :
    (extract E content).length = E.config.input_features ∧
    ∀ x ∈ extract E content, 0 ≤ x ∧ x ≤ 1 := by
  have main : ∀ (fs : List FeatureSpec) (acc : List ℚ),
      (∀ x ∈ acc, 0 ≤ x ∧ x ≤ 1) →
      (List.foldl
        (fun acc feat =>
          if feat.index < acc.length then
            acc.set feat.index (featureValue E feat content)
          else acc) acc fs).length = acc.length ∧
      ∀ x ∈ List.foldl
        (fun acc feat =>
          if feat.index < acc.length then
            acc.set feat.index (featureValue E feat content)
          else acc) acc fs, 0 ≤ x ∧ x ≤ 1 := by
    intro fs
    induction fs with
    | nil => intro acc hacc; exact ⟨rfl, hacc⟩
    | cons f t ih =>
        intro acc hacc
        simp only [List.foldl_cons]
        by_cases hidx : f.index < acc.length
        · have hacc2 : ∀ x ∈ acc.set f.index (featureValue E f content),
              0 ≤ x ∧ x ≤ 1 := by
            intro x hx
            rcases List.mem_or_eq_of_mem_set hx with hmem | heqv
            · exact hacc x hmem
            · rw [heqv]; exact featureValue_unit E hlog f content
          have hrec := ih (acc.set f.index (featureValue E f content)) hacc2
          rw [if_pos hidx]
          exact ⟨by rw [hrec.1, List.length_set], hrec.2⟩
        · rw [if_neg hidx]
          exact ih acc hacc
  have hinit : ∀ x ∈ List.replicate E.config.input_features (0:ℚ),
      0 ≤ x ∧ x ≤ 1 := by
    intro x hx
    rw [List.eq_of_mem_replicate hx]
    norm_num
  have h := main E.config.features (List.replicate E.config.input_features 0) hinit
  refine ⟨?_, h.2⟩
  rw [extract, h.1, List.length_replicate]

/-- A concrete config: one slot, no feature specs. -/
def zeroSlotConfig : FeatureConfig :=
  { input_features := 1
    features := []
    threshold := 1/2
    model_name := "t"
    model_hash_sha256 := ""
    onnx_path := "" }

/-- A concrete extractor: one slot, no feature specs. -/
def zeroSlotExtractor : FeatureExtractor :=
  { config := zeroSlotConfig
    compiledRegexes := fun _ => none
    log2 := fun _ => 0 }

/-- Witness for C6 at a concrete extractor and input. -/
theorem extract_shape_and_bounds_witness :
    (extract zeroSlotExtractor "abc").length = 1 ∧
    0 ≤ (extract zeroSlotExtractor "abc").headI ∧
    (extract zeroSlotExtractor "abc").headI ≤ 1 := by
  have h := extract_shape_and_bounds zeroSlotExtractor
    (fun q _ _ => le_refl 0) "abc"
  have hmem : (extract zeroSlotExtractor "abc").headI ∈
      extract zeroSlotExtractor "abc" := by decide
  exact ⟨h.1, h.2 _ hmem⟩

/-- The `string_match` spec with an empty needle. -/
def emptyNeedleSpec : FeatureSpec :=
  { name := "m"
    kind := "string_match"
    index := 0
    patterns := []
    strings := [""] }

/-- A concrete extractor with a single `string_match` feature whose
needle list contains the empty string. -/
def emptyNeedleExtractor : FeatureExtractor :=
  { config := { zeroSlotConfig with features := [emptyNeedleSpec] }
    compiledRegexes := fun _ => none
    log2 := fun _ => 0 }

/-- C7 counterexample: a constructible extractor with a `string_match`
spec whose needle is the empty string maps the empty input to the
vector `[1/10]`, not the zero vector — the empty needle matches once at
the single boundary of the empty content, as `str::matches` counts it. -/
theorem extract_empty_zero_claim_false :
    extract emptyNeedleExtractor "" = [(1 : ℚ)/10] ∧
    extract emptyNeedleExtractor "" ≠
      List.replicate emptyNeedleExtractor.config.input_features 0 := by
  have hcount : ((emptyNeedleSpec.strings.map
      (fun s => countOccur (lowerStr s) (lowerStr ""))).sum) = 1 := by decide
  have hfv : featureValue emptyNeedleExtractor emptyNeedleSpec "" = 1/10 := by
    rw [featureValue]
    rw [show emptyNeedleSpec.kind = "string_match" from rfl]
    rw [if_neg (by decide), if_pos rfl]
    norm_num [extract_string_match, hcount, min_def]
  have hext : extract emptyNeedleExtractor "" = [(1 : ℚ)/10] := by
    rw [extract]
    rw [show emptyNeedleExtractor.config.features = [emptyNeedleSpec] from rfl]
    rw [show emptyNeedleExtractor.config.input_features = 1 from rfl]
    rw [show List.replicate 1 (0:ℚ) = [0] from rfl]
    rw [List.foldl_cons, List.foldl_nil]
    rw [show emptyNeedleSpec.index = 0 from rfl]
    rw [if_pos (by norm_num)]
    rw [hfv]
    rfl
  refine ⟨hext, ?_⟩
  rw [hext, show emptyNeedleExtractor.config.input_features = 1 from rfl]
  intro hcontra
  rw [show List.replicate 1 (0:ℚ) = [0] from rfl] at hcontra
  have : (1 : ℚ)/10 = 0 := List.head_eq_of_cons_eq hcontra
  norm_num at this

theorem set_replicate_zero (n i : Nat) :
    (List.replicate n (0:ℚ)).set i 0 = List.replicate n 0 := by
  induction n generalizing i with
  | zero => rfl
  | succ m ih =>
      cases i with
      | zero => simp [List.replicate_succ, List.set]
      | succ j => simp [List.replicate_succ, List.set, ih]

theorem countMatches_nil_right (pat : List Char) (h : ¬ pat.isEmpty) :
    countMatches pat [] = 0 := by
  unfold countMatches
  rw [if_neg h]
  rfl

theorem extract_builtin_empty (log2 : ℚ → ℚ) (feat : FeatureSpec) :
    extract_builtin log2 feat "" = 0 := by
  unfold extract_builtin
  have h1 : ("":String).data.isEmpty = true := rfl
  have h2 : (wordsOf "").isEmpty = true := by decide
  have h3 : ("":String).utf8ByteSize = 0 := rfl
  have h4 : linesCount "" = 0 := rfl
  rw [h1, h2, h3, h4]
  norm_num [min_def]

theorem featureValue_empty (E : FeatureExtractor) (feat : FeatureSpec)
    (hstr : feat.kind = "string_match" → ∀ s ∈ feat.strings, s ≠ "")
    (hre : ∀ f, E.compiledRegexes feat.index = some f → f "" = 0) :
    featureValue E feat "" = 0 := by
  unfold featureValue
  split_ifs with h1 h2 h3
  · unfold extract_regex_count
    cases hE : E.compiledRegexes feat.index with
    | none => rfl
    | some f =>
        show (min ((f "" : ℚ)) 10) / 10 = 0
        rw [hre f hE]
        norm_num [min_def]
  · unfold extract_string_match
    have hz : ((lowerStr "").data) = [] := rfl
    have hsum : (feat.strings.map
        (fun s => countOccur (lowerStr s) (lowerStr ""))).sum = 0 := by
      apply List.sum_eq_zero
      intro x hx
      rw [List.mem_map] at hx
      obtain ⟨s, hs, rfl⟩ := hx
      have hne := hstr h2 s hs
      have hdata : s.data ≠ [] := by
        intro hd
        apply hne
        cases s with
        | mk d => cases hd; rfl
      unfold countOccur
      rw [hz]
      apply countMatches_nil_right
      intro hIsEmpty
      apply hdata
      have : (lowerStr s).data = [] := by
        rwa [List.isEmpty_iff] at hIsEmpty
      rw [lowerStr] at this
      exact List.map_eq_nil.mp this
    show (min (((feat.strings.map
        (fun s => countOccur (lowerStr s) (lowerStr ""))).sum : ℚ)) 10) / 10 = 0
    rw [hsum]
    norm_num [min_def]
  · exact extract_builtin_empty E.log2 feat
  · rfl

/-- C7 (amended): `extract ""` is the zero vector for every extractor
whose `string_match` needles are all non-empty and whose compiled
regexes have no match in the empty string; the counterexample shows the
restriction on empty needles is necessary (and an empty-matching regex
fails the same way). -/
theorem extract_empty_zero_of_benign (E : FeatureExtractor)
    (hstr : ∀ feat ∈ E.config.features, feat.kind = "string_match" →
      ∀ s ∈ feat.strings, s ≠ "")
    (hre : ∀ i f, E.compiledRegexes i = some f → f "" = 0) :
    extract E "" = List.replicate E.config.input_features 0 := by
  rw [extract]
  have main : ∀ (fs : List FeatureSpec),
      (∀ feat ∈ fs, feat.kind = "string_match" → ∀ s ∈ feat.strings, s ≠ "") →
      List.foldl
        (fun acc feat =>
          if feat.index < acc.length then
            acc.set feat.index (featureValue E feat "")
          else acc)
        (List.replicate E.config.input_features 0) fs =
      List.replicate E.config.input_features 0 := by
    intro fs
    induction fs with
    | nil => intro _; rfl
    | cons f t ih =>
        intro hall
        rw [List.foldl_cons]
        have hfv : featureValue E f "" = 0 :=
          featureValue_empty E f (hall f (List.mem_cons_self f t)) (hre f.index)
        by_cases hidx : f.index < (List.replicate E.config.input_features (0:ℚ)).length
        · rw [if_pos hidx, hfv, set_replicate_zero]
          exact ih (fun g hg => hall g (List.mem_cons_of_mem f hg))
        · rw [if_neg hidx]
          exact ih (fun g hg => hall g (List.mem_cons_of_mem f hg))
  exact main E.config.features hstr

/-- A concrete extractor with one non-empty `string_match` needle. -/
def benignExtractor : FeatureExtractor :=
  { config := { zeroSlotConfig with
      features := [{ emptyNeedleSpec with strings := ["a"] }] }
    compiledRegexes := fun _ => none
    log2 := fun _ => 0 }

/-- Witness for the amended C7 at a concrete extractor. -/
theorem extract_empty_zero_of_benign_witness :
    extract benignExtractor "" =
      List.replicate benignExtractor.config.input_features 0 :=
  extract_empty_zero_of_benign benignExtractor (by decide)
    (fun _ f h => Option.noConfusion h)

/-! ## ZK-proxy orchestrator (`src/src/zkproxy/guard.rs`)

`f64` values are rationals.  The worker co-process, the wall clock, the
UUID source and the file system are outside the program: each enters
`guard_check` as an explicit input in `GuardRun`. -/

/-- `ZkProxyConfig` from `src/src/zkproxy/config.rs`; paths as plain
strings, `threshold: f64` as a rational. -/
structure ZkProxyConfig where
  enabled : Bool
  model_path : String
  config_path : String
  python_bin : String
  worker_script : String
  threshold : ℚ
  tee_enabled : Bool
  deriving DecidableEq, Repr

/-- `ProofResult` from `src/src/zkproxy/types.rs`; the `timings`
hash map as an association list. -/
structure ProofResult where
  success : Bool
  score : ℚ
  proof_hash : String
  verified : Bool
  timings : List (String × ℚ)
  error : String
  note : String
  deriving DecidableEq, Repr

/-- `TimingBreakdown` from `src/src/zkproxy/types.rs`. -/
structure TimingBreakdown where
  feature_extraction_ms : ℚ
  witness_ms : ℚ
  prove_ms : ℚ
  verify_ms : ℚ
  total_ms : ℚ
  deriving DecidableEq, Repr

/-- `GuardDecision` from `src/src/zkproxy/types.rs`. -/
structure GuardDecision where
  allowed : Bool
  score : ℚ
  proof_hash : String
  proof_verified : Bool
  timing : TimingBreakdown
  tee_attestation : Option AttestationReport
  deriving DecidableEq, Repr

/-- `ZkAuditEntry` from `src/src/zkproxy/audit.rs`. -/
structure ZkAuditEntry where
  timestamp : String
  request_id : String
  user_id : String
  decision : Bool
  score : ℚ
  proof_hash : String
  proof_verified : Bool
  tee_attestation : Option AttestationReport
  feature_vector : List ℚ
  timing : TimingBreakdown
  guard_model_hash : String
  deriving DecidableEq, Repr

/-- `ZkAuditLog::create_entry` from `src/src/zkproxy/audit.rs`; the
RFC 3339 timestamp and the v4 UUID are clock/randomness inputs. -/
def ZkAuditLog.create_entry (timestamp request_id user_id : String)
    (decision : Bool) (score : ℚ) (proof_hash : String)
    (proof_verified : Bool) (tee_attestation : Option AttestationReport)
    (feature_vector : List ℚ) (timing : TimingBreakdown)
    (guard_model_hash : String) : ZkAuditEntry :=
  { timestamp := timestamp
    request_id := request_id
    user_id := user_id
    decision := decision
    score := score
    proof_hash := proof_hash
    proof_verified := proof_verified
    tee_attestation := tee_attestation
    feature_vector := feature_vector
    timing := timing
    guard_model_hash := guard_model_hash }

/-- `ZkAuditLog::log` from `src/src/zkproxy/audit.rs`: `Ok` when
disabled, otherwise the outcome of the file-system writes, which are
external and enter as the function `fsWrite` from the entry to a
result. -/
def ZkAuditLog.log (enabled : Bool)
    (fsWrite : ZkAuditEntry → Except String Unit)
    (entry : ZkAuditEntry) : Except String Unit :=
  if enabled = false then Except.ok () else fsWrite entry

/-- The `ZkProxy` state reached after `ZkProxy::new`: its config, its
extractor, the audit log flag (`true` in `new`), and the attest method
of the boxed TEE backend. -/
structure ZkProxyState where
  config : ZkProxyConfig
  extractor : FeatureExtractor
  auditEnabled : Bool
  teeAttest : BStr → AttestationReport

/-- The per-call external inputs of `guard_check`: the measured
millisecond durations, the worker call-and-parse outcome, the
file-system response to the audit append, and the clock/UUID stamps of
`create_entry`. -/
structure GuardRun where
  featMs : ℚ
  totalMs : ℚ
  workerResult : Except String ProofResult
  auditFs : ZkAuditEntry → Except String Unit
  entryTimestamp : String
  entryRequestId : String

/-- The `TimingBreakdown` built at `src/src/zkproxy/guard.rs:62`:
worker map entries with default `0.0`. -/
def guardTiming (run : GuardRun) (pr : ProofResult) : TimingBreakdown :=
  { feature_extraction_ms := run.featMs
    witness_ms := ((pr.timings.lookup "witness_ms").getD 0)
    prove_ms := ((pr.timings.lookup "prove_ms").getD 0)
    verify_ms := ((pr.timings.lookup "verify_ms").getD 0)
    total_ms := run.totalMs }

/-- The optional attestation of `src/src/zkproxy/guard.rs:72`. -/
def guardAttestation (st : ZkProxyState) (pr : ProofResult) :
    Option AttestationReport :=
  if st.config.tee_enabled then
    some (st.teeAttest (hexDecode (strBytes pr.proof_hash)))
  else none

/-- The `GuardDecision` built at `src/src/zkproxy/guard.rs:79`. -/
def guardDecisionOf (st : ZkProxyState) (run : GuardRun)
    (pr : ProofResult) : GuardDecision :=
  { allowed := decide (pr.score < st.config.threshold)
    score := pr.score
    proof_hash := pr.proof_hash
    proof_verified := pr.verified
    timing := guardTiming run pr
    tee_attestation := guardAttestation st pr }

/-- `ZkProxy::guard_check` from `src/src/zkproxy/guard.rs`: extract
features, consume the worker result, build timing and decision, attest
when enabled, append the audit entry, warn (second component) on audit
failure, and return the decision. -/
def ZkProxy.guard_check (st : ZkProxyState) (run : GuardRun)
    (content user_id : String) :
    Except String GuardDecision × List String :=
  let features := extract st.extractor content
  match run.workerResult with
  | Except.error e => (Except.error e, [])
  | Except.ok proof_result =>
      let timing := guardTiming run proof_result
      let allowed := decide (proof_result.score < st.config.threshold)
      let tee_attestation := guardAttestation st proof_result
      let decision := guardDecisionOf st run proof_result
      let entry := ZkAuditLog.create_entry run.entryTimestamp
        run.entryRequestId user_id allowed proof_result.score
        proof_result.proof_hash proof_result.verified tee_attestation
        features timing st.extractor.config.model_hash_sha256
      match ZkAuditLog.log st.auditEnabled run.auditFs entry with
      | Except.ok _ => (Except.ok decision, [])
      | Except.error e =>
          (Except.ok decision, ["Failed to write ZK audit log: " ++ e])

theorem guard_check_ok (st : ZkProxyState) (run : GuardRun)
    (content user_id : String) (pr : ProofResult)
    (hw : run.workerResult = Except.ok pr) :
    (ZkProxy.guard_check st run content user_id).1 =
      Except.ok (guardDecisionOf st run pr) := by
  unfold ZkProxy.guard_check
  rw [hw]
  cases hlog : ZkAuditLog.log st.auditEnabled run.auditFs
      (ZkAuditLog.create_entry run.entryTimestamp run.entryRequestId user_id
        (decide (pr.score < st.config.threshold)) pr.score pr.proof_hash
        pr.verified (guardAttestation st pr) (extract st.extractor content)
        (guardTiming run pr) st.extractor.config.model_hash_sha256) with
  | ok u => simp [hlog]
  | error e => simp [hlog]

/-- C1: whenever `guard_check` returns a `GuardDecision`, its `allowed`
field is exactly the test `score < config.threshold` on the score of
the `ProofResult` parsed from the worker response, and the decision
carries that same score. -/
theorem guard_allowed_eq_score_lt_threshold (st : ZkProxyState)
    (run : GuardRun) (content user_id : String) (pr : ProofResult)
    (d : GuardDecision)
    (hw : run.workerResult = Except.ok pr)
    (hd : (ZkProxy.guard_check st run content user_id).1 = Except.ok d) :
    d.allowed = decide (pr.score < st.config.threshold) ∧
    d.score = pr.score := by
  rw [guard_check_ok st run content user_id pr hw] at hd
  cases hd
  exact ⟨rfl, rfl⟩

/-- A concrete proxy state: threshold `1/2`, TEE disabled, audit on. -/
def proxyStateW : ZkProxyState :=
  { config :=
      { enabled := true
        model_path := "m.onnx"
        config_path := "c.json"
        python_bin := "python3"
        worker_script := "w.py"
        threshold := 1/2
        tee_enabled := false }
    extractor := zeroSlotExtractor
    auditEnabled := true
    teeAttest := fun _ => { proof_hash := [], timestamp := [], backend := [], signature := [] } }

/-- A concrete worker result with score `1` and empty timings. -/
def proofResultW : ProofResult :=
  { success := true
    score := 1
    proof_hash := "ab"
    verified := true
    timings := []
    error := ""
    note := "" }

/-- A concrete run whose worker call succeeds and whose audit append
succeeds. -/
def guardRunW : GuardRun :=
  { featMs := 1
    totalMs := 2
    workerResult := Except.ok proofResultW
    auditFs := fun _ => Except.ok ()
    entryTimestamp := "2024-01-01T00:00:00Z"
    entryRequestId := "rid" }

/-- Witness for C1 at a concrete state and run. -/
theorem guard_allowed_eq_score_lt_threshold_witness :
    (guardDecisionOf proxyStateW guardRunW proofResultW).allowed =
      decide (proofResultW.score < proxyStateW.config.threshold) ∧
    (guardDecisionOf proxyStateW guardRunW proofResultW).score =
      proofResultW.score :=
  guard_allowed_eq_score_lt_threshold proxyStateW guardRunW "c" "u"
    proofResultW (guardDecisionOf proxyStateW guardRunW proofResultW)
    rfl (guard_check_ok proxyStateW guardRunW "c" "u" proofResultW rfl)

/-- C9: when the audit append fails inside `guard_check`, the failure
is reported as the warn log line `Failed to write ZK audit log: e` and
the already-built decision is still returned as `Ok`, identical to the
one returned when the append succeeds. -/
theorem audit_failure_keeps_decision (st : ZkProxyState) (run : GuardRun)
    (content user_id : String) (pr : ProofResult) (e : String)
    (hw : run.workerResult = Except.ok pr)
    (hen : st.auditEnabled = true)
    (hfail : ∀ entry, run.auditFs entry = Except.error e) :
    (ZkProxy.guard_check st run content user_id).1 =
      (ZkProxy.guard_check st
        { run with auditFs := fun _ => Except.ok () } content user_id).1 ∧
    (ZkProxy.guard_check st run content user_id).1 =
      Except.ok (guardDecisionOf st run pr) ∧
    (ZkProxy.guard_check st run content user_id).2 =
      ["Failed to write ZK audit log: " ++ e] := by
  have hw2 : ({ run with auditFs := fun _ => Except.ok () } : GuardRun).workerResult
      = Except.ok pr := hw
  have h1 := guard_check_ok st run content user_id pr hw
  have h2 := guard_check_ok st { run with auditFs := fun _ => Except.ok () }
    content user_id pr hw2
  refine ⟨?_, h1, ?_⟩
  · rw [h1, h2]
    rfl
  · unfold ZkProxy.guard_check
    rw [hw]
    have hlog : ∀ entry, ZkAuditLog.log st.auditEnabled run.auditFs entry =
        Except.error e := by
      intro entry
      unfold ZkAuditLog.log
      rw [hen]
      simp [hfail]
    simp [hlog]

/-- A concrete run whose audit append fails with message `disk`. -/
def guardRunFailW : GuardRun :=
  { guardRunW with auditFs := fun _ => Except.error "disk" }

/-- Witness for C9 at a concrete state and failing audit run. -/
theorem audit_failure_keeps_decision_witness :
    (ZkProxy.guard_check proxyStateW guardRunFailW "c" "u").1 =
      (ZkProxy.guard_check proxyStateW
        { guardRunFailW with auditFs := fun _ => Except.ok () } "c" "u").1 ∧
    (ZkProxy.guard_check proxyStateW guardRunFailW "c" "u").1 =
      Except.ok (guardDecisionOf proxyStateW guardRunFailW proofResultW) ∧
    (ZkProxy.guard_check proxyStateW guardRunFailW "c" "u").2 =
      ["Failed to write ZK audit log: " ++ "disk"] :=
  audit_failure_keeps_decision proxyStateW guardRunFailW "c" "u"
    proofResultW "disk" rfl rfl (fun _ => rfl)

/-- C10: `guard_check` never reads the `success` field of the parsed
`ProofResult`: flipping it leaves the whole output (decision and warn
log) unchanged, and the call still returns `Ok` with the decision built
from `score` and `verified`. -/
theorem guard_check_ignores_success (st : ZkProxyState) (run : GuardRun)
    (content user_id : String) (pr : ProofResult) :
    ZkProxy.guard_check st
        { run with workerResult := Except.ok { pr with success := false } }
        content user_id =
      ZkProxy.guard_check st
        { run with workerResult := Except.ok { pr with success := true } }
        content user_id ∧
    (ZkProxy.guard_check st
        { run with workerResult := Except.ok { pr with success := false } }
        content user_id).1 =
      Except.ok (guardDecisionOf st
        { run with workerResult := Except.ok { pr with success := false } }
        { pr with success := false }) := by
  constructor
  · rfl
  · exact guard_check_ok st _ content user_id _ rfl
